import Mathlib

/-!
Verification of the resume/job-context-driven document generation pipeline
and of the portfolio's featured-project rendering component.

The pipeline (Prompt Builder, Generation Client, Response Validator) is
modelled from the specification, since its implementation (the Streamlit
"AI Career Assistant" described in the repository README) is not part of
the checked-in sources.  The featured-project component is embedded from
the source file that defines the `projects` array and the
`FeaturedProjects` React component.
-/

namespace Pipeline

/-! ### Character and string primitives

Text is modelled through its underlying character list so that every
operation is structurally recursive and evaluable by the kernel. -/

/-- Whitespace test used by trimming and blank-line detection. -/
def isWS (c : Char) : Bool := c == ' ' || c == '\t' || c == '\r' || c == '\n'

/-- Trim leading and trailing whitespace from a character list. -/
def trimChars (l : List Char) : List Char :=
  ((l.dropWhile isWS).reverse.dropWhile isWS).reverse

/-- Trim leading and trailing whitespace of a string. -/
def trimStr (s : String) : String := ⟨trimChars s.data⟩

/-- Lowercase a single ASCII character. -/
def lowerChar (c : Char) : Char :=
  if 65 ≤ c.toNat && c.toNat ≤ 90 then Char.ofNat (c.toNat + 32) else c

/-- Lowercase a string (ASCII case folding). -/
def lowerStr (s : String) : String := ⟨s.data.map lowerChar⟩

/-- Does the haystack start with the pattern (first argument)? -/
def isSubAt : List Char → List Char → Bool
  | [], _ => true
  | _ :: _, [] => false
  | p :: ps, h :: hs => p == h && isSubAt ps hs

/-- Does the pattern occur anywhere in the haystack? -/
def containsSubAux (pat : List Char) : List Char → Bool
  | [] => isSubAt pat []
  | h :: hs => isSubAt pat (h :: hs) || containsSubAux pat hs

/-- Substring containment on strings: `containsSub hay pat` is true when
`pat` occurs contiguously inside `hay`. -/
def containsSub (hay pat : String) : Bool := containsSubAux pat.data hay.data

/-- `startsWithStr s w` holds when `s` begins with `w`. -/
def startsWithStr (s w : String) : Bool := isSubAt w.data s.data

/-- Split a character stream into lines at newline characters. -/
def splitLinesAux : List Char → List Char → List (List Char)
  | [], cur => [cur.reverse]
  | c :: rest, cur =>
    if c == '\n' then cur.reverse :: splitLinesAux rest []
    else splitLinesAux rest (c :: cur)

/-- Split a string into its lines. -/
def splitLines (s : String) : List String :=
  (splitLinesAux s.data []).map (fun l => ⟨l⟩)

/-- Join lines back into a single text with newline separators. -/
def joinLines : List String → String
  | [] => ""
  | [a] => a
  | a :: b :: rest => a ++ "\n" ++ joinLines (b :: rest)

/-- Byte-wise (code-point-wise) lexicographic order on character lists. -/
def leChars : List Char → List Char → Bool
  | [], _ => true
  | _ :: _, [] => false
  | a :: as, b :: bs =>
    a.toNat < b.toNat || (a.toNat == b.toNat && leChars as bs)

/-- Lexicographic order on strings. -/
def strLE (a b : String) : Bool := leChars a.data b.data

/-! ### Generic insertion sort over strings -/

/-- Insert an element into a list sorted by `le`. -/
def insertSorted (le : String → String → Bool) (a : String) :
    List String → List String
  | [] => [a]
  | b :: t => if le a b then a :: b :: t else b :: insertSorted le a t

/-- Insertion sort by the order `le`. -/
def sortStringsBy (le : String → String → Bool) : List String → List String
  | [] => []
  | a :: t => insertSorted le a (sortStringsBy le t)

/-- `sortedBy le l` holds when consecutive elements of `l` satisfy `le`. -/
def sortedBy (le : String → String → Bool) : List String → Bool
  | [] => true
  | [_] => true
  | a :: b :: t => le a b && sortedBy le (b :: t)

theorem leChars_total (a b : List Char) : leChars a b = true ∨ leChars b a = true := by
  induction a generalizing b with
  | nil => left; rfl
  | cons x xs ih =>
    cases b with
    | nil => right; rfl
    | cons y ys =>
      rcases Nat.lt_trichotomy x.toNat y.toNat with h | h | h
      · left; simp [leChars, h]
      · rcases ih ys with h2 | h2
        · left; simp [leChars, h, h2]
        · right; simp [leChars, h.symm, h2]
      · right; simp [leChars, h]

theorem strLE_total (a b : String) : strLE a b = true ∨ strLE b a = true :=
  leChars_total a.data b.data

/-- Totality of a string order: one direction always holds. -/
def totalLE (le : String → String → Bool) : Prop :=
  ∀ a b, le a b = true ∨ le b a = true

theorem mem_insertSorted {le a x} {l : List String} :
    x ∈ insertSorted le a l ↔ x = a ∨ x ∈ l := by
  induction l with
  | nil => simp [insertSorted]
  | cons b t ih =>
    by_cases h : le a b = true
    · simp [insertSorted, h]
    · simp only [insertSorted, if_neg h, List.mem_cons, ih]
      tauto

theorem mem_sortStringsBy {le x} {l : List String} :
    x ∈ sortStringsBy le l ↔ x ∈ l := by
  induction l with
  | nil => simp [sortStringsBy]
  | cons a t ih => simp [sortStringsBy, mem_insertSorted, ih]

theorem sortStringsBy_eq_nil {le} {l : List String} :
    sortStringsBy le l = [] ↔ l = [] := by
  cases l with
  | nil => simp [sortStringsBy]
  | cons a t =>
    constructor
    · intro h
      have : a ∈ sortStringsBy le (a :: t) := mem_sortStringsBy.mpr (by simp)
      rw [h] at this
      cases this
    · intro h; cases h

theorem sortedBy_insertSorted {le} (htot : totalLE le) (a : String)
    {l : List String} (hl : sortedBy le l = true) :
    sortedBy le (insertSorted le a l) = true := by
  induction l with
  | nil => rfl
  | cons b t ih =>
    by_cases h : le a b = true
    · simpa [insertSorted, h, sortedBy] using hl
    · have hba : le b a = true := (htot a b).resolve_left h
      cases t with
      | nil => simp [insertSorted, h, sortedBy, hba]
      | cons c t2 =>
        have htail : sortedBy le (c :: t2) = true := by
          simp [sortedBy] at hl; exact hl.2
        have hbc : le b c = true := by
          simp [sortedBy] at hl; exact hl.1
        have hins := ih htail
        by_cases hac : le a c = true
        · simp [insertSorted, h, hac, sortedBy, hba, hins, htail]
        · simp only [insertSorted, if_neg h, if_neg hac, sortedBy]
          simp only [insertSorted, if_neg hac] at hins
          simp [hbc, hins]

theorem sortedBy_sortStringsBy {le} (htot : totalLE le) (l : List String) :
    sortedBy le (sortStringsBy le l) = true := by
  induction l with
  | nil => rfl
  | cons a t ih => exact sortedBy_insertSorted htot a ih

/-! ### Normalization stage

Modelled from the spec: the Response Validator "collapses runs of blank
lines to at most one, strips markdown emphasis markers not allowed by
writing guidelines, trims leading/trailing whitespace".  Normalization is
modelled at line granularity. -/

/-- A line is blank when it trims to the empty string. -/
def isBlank (s : String) : Bool := trimChars s.data == []

/-- Strip markdown emphasis markers from one line. -/
def stripEmphasis (s : String) : String :=
  ⟨s.data.filter (fun c => !(c == '*' || c == '_'))⟩

/-- Collapse each run of consecutive blank lines to a single blank line. -/
def collapseBlankRuns : List String → List String
  | [] => []
  | [a] => [a]
  | a :: b :: rest =>
    if isBlank a = true ∧ isBlank b = true then collapseBlankRuns (b :: rest)
    else a :: collapseBlankRuns (b :: rest)

/-- Drop trailing blank lines. -/
def dropTrailingBlanks (l : List String) : List String :=
  ((l.reverse).dropWhile isBlank).reverse

/-- The whole normalization pass on a list of lines: strip emphasis
markers, collapse blank runs, drop leading and trailing blank lines. -/
def normalizeLines (ls : List String) : List String :=
  dropTrailingBlanks
    (List.dropWhile isBlank (collapseBlankRuns (ls.map stripEmphasis)))

/-! Idempotence of the normalization pass. -/

theorem filter_filter_self (p : Char → Bool) (l : List Char) :
    List.filter p (List.filter p l) = List.filter p l := by
  induction l with
  | nil => rfl
  | cons c cs ih =>
    cases h : p c with
    | false => simp [List.filter_cons, h, ih]
    | true => simp [List.filter_cons, h, ih]

theorem stripEmphasis_idem (s : String) :
    stripEmphasis (stripEmphasis s) = stripEmphasis s :=
  congrArg String.mk (filter_filter_self _ s.data)

theorem mem_of_mem_dropWhileP {p : String → Bool} {x : String} {l : List String} :
    x ∈ List.dropWhile p l → x ∈ l := by
  induction l with
  | nil => intro h; cases h
  | cons a t ih =>
    by_cases hb : p a = true
    · intro h
      exact List.mem_cons_of_mem a (ih (by simpa [List.dropWhile_cons_of_pos hb] using h))
    · intro h
      simpa [List.dropWhile_cons_of_neg hb] using h

theorem mem_collapseBlankRuns {x : String} {l : List String} :
    x ∈ collapseBlankRuns l → x ∈ l := by
  induction l with
  | nil => intro h; cases h
  | cons a t ih =>
    cases t with
    | nil => intro h; exact h
    | cons b t2 =>
      by_cases hab : isBlank a = true ∧ isBlank b = true
      · intro h
        simp only [collapseBlankRuns, if_pos hab] at h
        exact List.mem_cons_of_mem a (ih h)
      · intro h
        simp only [collapseBlankRuns, if_neg hab] at h
        rcases List.mem_cons.mp h with h | h
        · exact h ▸ List.mem_cons_self x (b :: t2)
        · exact List.mem_cons_of_mem a (ih h)

theorem mem_dropTrailingBlanks {x : String} {l : List String} :
    x ∈ dropTrailingBlanks l → x ∈ l := by
  intro h
  have h1 : x ∈ List.dropWhile isBlank l.reverse := List.mem_reverse.mp h
  exact List.mem_reverse.mp (mem_of_mem_dropWhileP h1)

/-- No two consecutive lines are both blank. -/
def noAdjBlank : List String → Prop
  | a :: b :: t => ¬(isBlank a = true ∧ isBlank b = true) ∧ noAdjBlank (b :: t)
  | _ => True

theorem noAdjBlank_tail {a : String} {t : List String} :
    noAdjBlank (a :: t) → noAdjBlank t := by
  cases t with
  | nil => intro _; trivial
  | cons b t2 => intro h; exact h.2

theorem noAdjBlank_cons_of_not_blank {a : String} {r : List String}
    (ha : isBlank a = false) (hr : noAdjBlank r) : noAdjBlank (a :: r) := by
  cases r with
  | nil => trivial
  | cons b t =>
    refine ⟨fun hc => ?_, hr⟩
    rw [hc.1] at ha
    cases ha

theorem noAdjBlank_collapseBlankRuns (l : List String) :
    noAdjBlank (collapseBlankRuns l) := by
  induction l with
  | nil => trivial
  | cons a t ih =>
    cases t with
    | nil => trivial
    | cons b t2 =>
      by_cases hab : isBlank a = true ∧ isBlank b = true
      · simpa only [collapseBlankRuns, if_pos hab] using ih
      · simp only [collapseBlankRuns, if_neg hab]
        cases t2 with
        | nil => exact ⟨hab, trivial⟩
        | cons c t3 =>
          by_cases hbc : isBlank b = true ∧ isBlank c = true
          · have ha : isBlank a = false := by
              cases hx : isBlank a with
              | false => rfl
              | true => exact absurd ⟨hx, hbc.1⟩ hab
            exact noAdjBlank_cons_of_not_blank ha ih
          · have ih2 : noAdjBlank (b :: collapseBlankRuns (c :: t3)) := by
              simpa only [collapseBlankRuns, if_neg hbc] using ih
            rw [show collapseBlankRuns (b :: c :: t3) =
                b :: collapseBlankRuns (c :: t3) by
              simp only [collapseBlankRuns, if_neg hbc]]
            exact ⟨hab, ih2⟩

theorem collapseBlankRuns_of_noAdjBlank {l : List String}
    (h : noAdjBlank l) : collapseBlankRuns l = l := by
  induction l with
  | nil => rfl
  | cons a t ih =>
    cases t with
    | nil => rfl
    | cons b t2 =>
      simp only [collapseBlankRuns, if_neg h.1]
      rw [ih h.2]

theorem noAdjBlank_dropWhileBlank {l : List String}
    (h : noAdjBlank l) : noAdjBlank (List.dropWhile isBlank l) := by
  induction l with
  | nil => trivial
  | cons a t ih =>
    by_cases hb : isBlank a = true
    · rw [List.dropWhile_cons_of_pos hb]
      exact ih (noAdjBlank_tail h)
    · rwa [List.dropWhile_cons_of_neg hb]

theorem noAdjBlank_append_left {l1 l2 : List String}
    (h : noAdjBlank (l1 ++ l2)) : noAdjBlank l1 := by
  induction l1 with
  | nil => trivial
  | cons a t ih =>
    cases t with
    | nil => trivial
    | cons b t2 =>
      have h' : noAdjBlank ((a :: b :: t2) ++ l2) := h
      exact ⟨h'.1, ih h'.2⟩

theorem dropTrailingBlanks_front (l : List String) :
    ∃ rest, l = dropTrailingBlanks l ++ rest := by
  refine ⟨(l.reverse.takeWhile isBlank).reverse, ?_⟩
  unfold dropTrailingBlanks
  rw [← List.reverse_append, List.takeWhile_append_dropWhile, List.reverse_reverse]

theorem dropWhile_head_false {p : String → Bool} {l : List String}
    {a : String} {t : List String}
    (h : List.dropWhile p l = a :: t) : p a = false := by
  induction l with
  | nil => cases h
  | cons b t2 ih =>
    by_cases hb : p b = true
    · rw [List.dropWhile_cons_of_pos hb] at h
      exact ih h
    · rw [List.dropWhile_cons_of_neg hb] at h
      have : b = a := (List.cons.injEq _ _ _ _ ▸ h).1
      rw [← this]
      simpa using hb

theorem dropWhile_self (p : String → Bool) (l : List String) :
    List.dropWhile p (List.dropWhile p l) = List.dropWhile p l := by
  cases h : List.dropWhile p l with
  | nil => rfl
  | cons a t =>
    rw [List.dropWhile_cons_of_neg (by simp [dropWhile_head_false h])]

theorem dropTrailingBlanks_idem (l : List String) :
    dropTrailingBlanks (dropTrailingBlanks l) = dropTrailingBlanks l := by
  unfold dropTrailingBlanks
  rw [List.reverse_reverse, dropWhile_self]

theorem map_eq_self_of_forall {f : String → String} {l : List String}
    (h : ∀ x ∈ l, f x = x) : l.map f = l := by
  induction l with
  | nil => rfl
  | cons a t ih =>
    simp only [List.map_cons, h a (List.mem_cons_self a t),
      ih (fun x hx => h x (List.mem_cons_of_mem a hx))]

theorem normalizeLines_idem (ls : List String) :
    normalizeLines (normalizeLines ls) = normalizeLines ls := by
  set C := collapseBlankRuns (ls.map stripEmphasis) with hC
  set D := List.dropWhile isBlank C with hD
  set T := dropTrailingBlanks D with hT
  have hmap : T.map stripEmphasis = T := by
    apply map_eq_self_of_forall
    intro x hx
    have hxD : x ∈ D := mem_dropTrailingBlanks hx
    have hxC : x ∈ C := mem_of_mem_dropWhileP hxD
    rcases List.mem_map.mp (mem_collapseBlankRuns hxC) with ⟨y, _, hy⟩
    rw [← hy, stripEmphasis_idem]
  have hnadjC : noAdjBlank C := noAdjBlank_collapseBlankRuns _
  have hnadjD : noAdjBlank D := noAdjBlank_dropWhileBlank hnadjC
  have hnadjT : noAdjBlank T := by
    rcases dropTrailingBlanks_front D with ⟨rest, hrest⟩
    rw [← hT] at hrest
    exact noAdjBlank_append_left (hrest ▸ hnadjD)
  have hcoll : collapseBlankRuns T = T := collapseBlankRuns_of_noAdjBlank hnadjT
  have hdw : List.dropWhile isBlank T = T := by
    cases hTc : T with
    | nil => rfl
    | cons a t =>
      rcases dropTrailingBlanks_front D with ⟨rest, hrest⟩
      rw [← hT, hTc] at hrest
      have hhd : List.dropWhile isBlank C = a :: (t ++ rest) := by
        rw [← hD]; exact hrest
      have : isBlank a = false := dropWhile_head_false hhd
      rw [List.dropWhile_cons_of_neg (by simp [this])]
  show dropTrailingBlanks (List.dropWhile isBlank
      (collapseBlankRuns (T.map stripEmphasis))) = T
  rw [hmap, hcoll, hdw, hT, dropTrailingBlanks_idem]

/-! ### Data model

Modelled from the spec (§3 DATA MODEL): the implementation of the
assistant tool is not among the checked-in sources, so the record types
follow the spec's field lists. -/

/-- Modelled from the spec: the document kinds of a GenerationRequest. -/
inductive DocKind
  | email
  | resumeUpdate
  | coverLetter
  | qa
  | analysis
deriving DecidableEq, Repr, Inhabited

/-- Modelled from the spec: the PersonalDetails record. -/
structure PersonalDetails where
  fullName : String
  email : String
  phone : String
  education : List String
  location : String
  workAuthorization : String
deriving DecidableEq, Repr, Inhabited

/-- Modelled from the spec: the JobContext record. -/
structure JobContext where
  description : String
  extractedKeywords : List String
  requiredTechnologies : List String
deriving DecidableEq, Repr, Inhabited

/-- Modelled from the spec: a project derived from the resume. -/
structure ResumeProject where
  title : String
  description : String
  technologies : List String
deriving DecidableEq, Repr, Inhabited

/-- Modelled from the spec: the ResumeContext record. -/
structure ResumeContext where
  rawText : String
  extractedSkills : List String
  extractedProjects : List ResumeProject
deriving DecidableEq, Repr, Inhabited

/-- Modelled from the spec: the immutable composite snapshot returned by
the Context Store for one request. -/
structure Snapshot where
  personal : PersonalDetails
  job : JobContext
  resume : ResumeContext
deriving DecidableEq, Repr, Inhabited

/-- Modelled from the spec: the user-facing options mapping; the two
recognized option names are `purpose` and `tone`. -/
structure Options where
  purpose : String
  tone : String
deriving DecidableEq, Repr, Inhabited

/-- Modelled from the spec: named configuration (resume-length cap for the
Prompt Builder, retry count for the Generation Client). -/
structure PipelineConfig where
  resumeCap : Nat
  retryCount : Nat
deriving DecidableEq, Repr, Inhabited

/-- Modelled from the spec (§7): the error taxonomy of the pipeline. -/
inductive PipelineError
  | invalidContext (field : String)
  | invalidOption (key : String)
  | generationTimeout
  | transientServiceError
  | authFailure
deriving DecidableEq, Repr

/-- Modelled from the spec: the value object assembled by the Prompt
Builder, including the technology-matching fields and the truncation
flag. -/
structure GenerationRequest where
  kind : DocKind
  options : Options
  personal : PersonalDetails
  job : JobContext
  resumeTextIncluded : String
  resumeTruncated : Bool
  techOverlap : List String
  resumeOnlyTech : List String
  jobOnlyTech : List String
  guidelines : List String
deriving DecidableEq, Repr, Inhabited

/-- Modelled from the spec: the immutable result of one request. -/
structure GenerationResult where
  kind : DocKind
  rawText : String
  normalizedText : String
  validationIssues : List String
deriving DecidableEq, Repr, Inhabited

/-! ### Prompt Builder -/

/-- Normalize one technology term: trim, then lowercase. -/
def normTerm (s : String) : String := lowerStr (trimStr s)

/-- Normalized, deduplicated set view of a term list. -/
def normSet (l : List String) : List String := (l.map normTerm).dedup

/-- Lexicographic sort of a string list. -/
def sortStrs : List String → List String := sortStringsBy strLE

/-- Case-insensitive, trimmed, lexicographically sorted set intersection
of resume skills and job technologies. -/
def techOverlapOf (skills techs : List String) : List String :=
  sortStrs ((normSet skills).filter (fun s => (normSet techs).contains s))

/-- Resume-only remainder of the technology matching. -/
def resumeOnlyOf (skills techs : List String) : List String :=
  sortStrs ((normSet skills).filter (fun s => !((normSet techs).contains s)))

/-- Job-only remainder of the technology matching. -/
def jobOnlyOf (skills techs : List String) : List String :=
  sortStrs ((normSet techs).filter (fun s => !((normSet skills).contains s)))

/-- Modelled from the spec: purposes legal for the Email kind. -/
def validPurposes : List String :=
  ["JobApplication", "FollowUp", "Networking", "ThankYou"]

/-- Modelled from the spec: tones legal for the Email kind. -/
def validTones : List String :=
  ["Professional", "Confident", "Friendly", "Formal"]

/-- Modelled from the spec: the fixed library of writing-guideline
fragments selected by kind. -/
def guidelinesFor : DocKind → List String
  | DocKind.email =>
    ["no more than one exclamation point",
     "close with a professional signature using the configured full name"]
  | DocKind.coverLetter =>
    ["reference the job title at least once",
     "close with a professional signature using the configured full name"]
  | DocKind.resumeUpdate =>
    ["retain every technology term present in the input resume",
     "use ATS-friendly formatting"]
  | DocKind.qa => ["answer from the configured profile only"]
  | DocKind.analysis => ["report skill overlap and gaps explicitly"]

/-- Truncate a string to at most `cap` characters. -/
def truncateTo (cap : Nat) (s : String) : String := ⟨s.data.take cap⟩

/-- Modelled from the spec (§4.2): the Prompt Builder.  Validates the
snapshot context (non-empty resume text and job description), validates
the enumerated options legal for the kind, computes the technology
matching fields, merges the guideline fragments, and bounds the resume
payload by the configured cap, flagging truncation. -/
def build (cfg : PipelineConfig) (kind : DocKind) (opts : Options)
    (snap : Snapshot) : Except PipelineError GenerationRequest :=
  if snap.resume.rawText = "" then
    Except.error (PipelineError.invalidContext "resume.rawText")
  else if snap.job.description = "" then
    Except.error (PipelineError.invalidContext "job.description")
  else if kind = DocKind.email ∧ ¬(opts.purpose ∈ validPurposes) then
    Except.error (PipelineError.invalidOption "purpose")
  else if kind = DocKind.email ∧ ¬(opts.tone ∈ validTones) then
    Except.error (PipelineError.invalidOption "tone")
  else
    Except.ok
      { kind := kind
        options := opts
        personal := snap.personal
        job := snap.job
        resumeTextIncluded :=
          if cfg.resumeCap < snap.resume.rawText.length then
            truncateTo cfg.resumeCap snap.resume.rawText
          else snap.resume.rawText
        resumeTruncated := decide (cfg.resumeCap < snap.resume.rawText.length)
        techOverlap :=
          techOverlapOf snap.resume.extractedSkills snap.job.requiredTechnologies
        resumeOnlyTech :=
          resumeOnlyOf snap.resume.extractedSkills snap.job.requiredTechnologies
        jobOnlyTech :=
          jobOnlyOf snap.resume.extractedSkills snap.job.requiredTechnologies
        guidelines := guidelinesFor kind }

/-! ### Response Validator / Post-processor -/

/-- Modelled from the spec: the configured context the structural checks
read (full name, job-title term, skills and input text for the
resume-retention check). -/
structure ValidationContext where
  fullName : String
  jobTitle : String
  extractedSkills : List String
  inputResumeText : String
  removalInstructed : List String
deriving DecidableEq, Repr

/-- Greeting words that make a line a detectable greeting. -/
def greetingWords : List String := ["Dear", "Hello", "Hi"]

/-- A line is a greeting line when, after trimming, it starts with one of
the greeting words. -/
def isGreetingLine (l : String) : Bool :=
  greetingWords.any (fun w => startsWithStr (trimStr l) w)

/-- Does the text contain a detectable greeting line? -/
def hasGreeting (text : String) : Bool :=
  (splitLines text).any isGreetingLine

/-- Does some line of the text contain the configured full name? -/
def hasSignature (ctx : ValidationContext) (text : String) : Bool :=
  (splitLines text).any (fun l => containsSub l ctx.fullName)

/-- Does the text mention the job-title-equivalent term? -/
def mentionsJobTitle (ctx : ValidationContext) (text : String) : Bool :=
  containsSub text ctx.jobTitle

/-- A skill must be retained when it came from the extracted skills, was
present in the input resume, and its removal was not instructed. -/
def skillRetained (ctx : ValidationContext) (text : String) (s : String) : Bool :=
  !(containsSub ctx.inputResumeText s) || containsSub text s ||
    ctx.removalInstructed.contains s

/-- The extracted skills the output failed to retain. -/
def missingSkills (ctx : ValidationContext) (text : String) : List String :=
  ctx.extractedSkills.filter (fun s => !(skillRetained ctx text s))

/-- Issue text for a missing greeting. -/
def greetIssueMsg : String := "missing-greeting: no greeting line detected"

/-- Issue text for a missing signature. -/
def sigIssueMsg : String :=
  "missing-signature: no closing line contains the configured full name"

/-- Issue text for an absent job title. -/
def titleIssueMsg : String :=
  "missing-job-title: the job title does not appear in the letter"

/-- Issue text for a dropped skill. -/
def skillIssueMsg (s : String) : String := "missing-skill: " ++ s

/-- Modelled from the spec: the per-kind structural checks, as the list of
issues they raise. -/
def kindIssues (ctx : ValidationContext) (kind : DocKind) (text : String) :
    List String :=
  match kind with
  | DocKind.email =>
    (if hasGreeting text then [] else [greetIssueMsg]) ++
      (if hasSignature ctx text then [] else [sigIssueMsg])
  | DocKind.coverLetter =>
    if mentionsJobTitle ctx text then [] else [titleIssueMsg]
  | DocKind.resumeUpdate => (missingSkills ctx text).map skillIssueMsg
  | DocKind.qa => []
  | DocKind.analysis => []

/-- Severity rank of an issue: content-retention findings rank after the
structural omissions. -/
def issueSeverity (s : String) : Nat :=
  if startsWithStr s "missing-skill" then 2 else 1

/-- The fixed severity-then-alphabetical order on issues. -/
def issueLE (a b : String) : Bool :=
  issueSeverity a < issueSeverity b ||
    (issueSeverity a == issueSeverity b && strLE a b)

/-- Sort issues by severity, then alphabetically. -/
def sortIssues : List String → List String := sortStringsBy issueLE

/-- Modelled from the spec (§4.4): the Response Validator.  Runs the
per-kind structural checks, normalizes the text, and returns the result
with the (sorted) issues; the raw text is always kept. -/
def validate (ctx : ValidationContext) (kind : DocKind) (rawText : String) :
    GenerationResult :=
  { kind := kind
    rawText := rawText
    normalizedText := joinLines (normalizeLines (splitLines rawText))
    validationIssues := sortIssues (kindIssues ctx kind rawText) }

/-- Modelled from the spec: a result is eligible for direct display or
send without a user override exactly when every per-kind structural check
passes. -/
def eligibleForDirectUse (ctx : ValidationContext) (kind : DocKind)
    (text : String) : Bool :=
  match kind with
  | DocKind.email => hasGreeting text && hasSignature ctx text
  | DocKind.coverLetter => mentionsJobTitle ctx text
  | DocKind.resumeUpdate => ctx.extractedSkills.all (skillRetained ctx text)
  | DocKind.qa => true
  | DocKind.analysis => true

/-! ### Generation Client -/

/-- Modelled from the spec (§6): one response of the opaque
text-completion boundary, indexed by attempt. -/
inductive CompletionResponse
  | success (text : String)
  | transientFailure
  | authFailure
  | invalidOption (key : String)
deriving DecidableEq, Repr

/-- Modelled from the spec (§4.3): the retry loop of the Generation
Client.  `respond` is the boundary's behavior per attempt index, `fuel`
the number of retries still allowed.  Transient failures are retried;
`authFailure` and `invalidOption` are terminal. -/
def generateLoop (respond : Nat → CompletionResponse) :
    Nat → Nat → Except PipelineError String
  | attempt, fuel =>
    match respond attempt with
    | CompletionResponse.success t => Except.ok t
    | CompletionResponse.authFailure => Except.error PipelineError.authFailure
    | CompletionResponse.invalidOption key =>
      Except.error (PipelineError.invalidOption key)
    | CompletionResponse.transientFailure =>
      match fuel with
      | 0 => Except.error PipelineError.transientServiceError
      | Nat.succ f => generateLoop respond (attempt + 1) f

/-- Modelled from the spec: the Generation Client entry point, starting
at attempt 0 with the configured retry count. -/
def generateClient (retryCount : Nat) (respond : Nat → CompletionResponse) :
    Except PipelineError String :=
  generateLoop respond 0 retryCount

/-! ### Step lemmas for the Generation Client -/

theorem generateLoop_success {respond : Nat → CompletionResponse} {a f : Nat}
    {t : String} (h : respond a = CompletionResponse.success t) :
    generateLoop respond a f = Except.ok t := by
  cases f with
  | zero => simp only [generateLoop, h]
  | succ f => simp only [generateLoop, h]

theorem generateLoop_auth {respond : Nat → CompletionResponse} {a f : Nat}
    (h : respond a = CompletionResponse.authFailure) :
    generateLoop respond a f = Except.error PipelineError.authFailure := by
  cases f with
  | zero => simp only [generateLoop, h]
  | succ f => simp only [generateLoop, h]

theorem generateLoop_opt {respond : Nat → CompletionResponse} {a f : Nat}
    {key : String} (h : respond a = CompletionResponse.invalidOption key) :
    generateLoop respond a f = Except.error (PipelineError.invalidOption key) := by
  cases f with
  | zero => simp only [generateLoop, h]
  | succ f => simp only [generateLoop, h]

theorem generateLoop_retry {respond : Nat → CompletionResponse} {a f : Nat}
    (h : respond a = CompletionResponse.transientFailure) :
    generateLoop respond a (f + 1) = generateLoop respond (a + 1) f := by
  simp only [generateLoop, h]

theorem generateLoop_exhausted {respond : Nat → CompletionResponse} {a : Nat}
    (h : respond a = CompletionResponse.transientFailure) :
    generateLoop respond a 0 = Except.error PipelineError.transientServiceError := by
  simp only [generateLoop, h]

/-! ### Totality of the issue order -/

theorem issueLE_total : totalLE issueLE := by
  intro a b
  unfold issueLE
  rcases Nat.lt_trichotomy (issueSeverity a) (issueSeverity b) with h | h | h
  · left; simp [h]
  · rcases strLE_total a b with h2 | h2
    · left; simp [h, h2]
    · right; simp [h.symm, h2]
  · right; simp [h]

/-! ### Concrete inputs used by witnesses -/

/-- Snapshot with the technology sets of testable property 4. -/
def snapEx : Snapshot :=
  { personal :=
      { fullName := "Vinay Ramesh"
        email := "vinay@example.com"
        phone := "555-0100"
        education := ["MS Data Science"]
        location := "Denton, TX"
        workAuthorization := "F1 OPT" }
    job :=
      { description := "Data Analyst building dashboards"
        extractedKeywords := ["dashboards"]
        requiredTechnologies := ["sql", "power bi", "python"] }
    resume :=
      { rawText := "Analyst experienced in SQL, Python and Tableau."
        extractedSkills := ["SQL", "Python", "Tableau"]
        extractedProjects := [] } }

/-- Configuration with a cap large enough to keep `snapEx` untruncated. -/
def cfgEx : PipelineConfig := { resumeCap := 1000, retryCount := 3 }

/-- Valid enumerated options for the Email kind. -/
def optsEx : Options := { purpose := "JobApplication", tone := "Professional" }

/-- The request built from the example snapshot. -/
def reqEx : GenerationRequest :=
  match build cfgEx DocKind.email optsEx snapEx with
  | Except.ok r => r
  | Except.error _ => default

/-- Snapshot whose job description is empty. -/
def snapEmptyJob : Snapshot :=
  { snapEx with job := { snapEx.job with description := "" } }

/-- Snapshot whose resume text is empty. -/
def snapEmptyResume : Snapshot :=
  { snapEx with resume := { snapEx.resume with rawText := "" } }

/-- Options with an unrecognized purpose. -/
def optsBadPurpose : Options := { purpose := "Banana", tone := "Professional" }

/-- Configuration with a small resume cap, to exercise truncation. -/
def cfgSmallCap : PipelineConfig := { resumeCap := 5, retryCount := 3 }

/-- Snapshot with a ten-character resume text. -/
def snapLongResume : Snapshot :=
  { snapEx with resume := { snapEx.resume with rawText := "0123456789" } }

/-- The request built under the small cap from the long resume. -/
def reqTrunc : GenerationRequest :=
  match build cfgSmallCap DocKind.email optsEx snapLongResume with
  | Except.ok r => r
  | Except.error _ => default

/-- Validation context configured with the example full name. -/
def ctxEx : ValidationContext :=
  { fullName := "Vinay Ramesh"
    jobTitle := "Data Analyst"
    extractedSkills := ["SQL", "Python", "Tableau"]
    inputResumeText := "Analyst experienced in SQL, Python and Tableau."
    removalInstructed := [] }

/-- A generated email that never mentions the configured full name. -/
def emailNoName : String := "Hello team,\nI am excited to apply.\nThanks"

/-- Boundary behavior: transient failures on attempts 0..2, success on 3. -/
def respondEx : Nat → CompletionResponse :=
  fun i => if i < 3 then CompletionResponse.transientFailure
           else CompletionResponse.success "draft"

/-! ### Claim theorems -/

/-- C1: the request the Prompt Builder produces carries a technology
overlap equal to the case-insensitive, trimmed, lexicographically sorted
set intersection of the resume skills and the job technologies, together
with the job-only and resume-only remainders; on the spec's example
(resume skills SQL/Python/Tableau, job technologies sql/power bi/python)
the overlap is ["python", "sql"] and the job-only remainder
["power bi"]. -/
theorem build_techOverlap_correct (cfg : PipelineConfig) (kind : DocKind)
    (opts : Options) (snap : Snapshot) (req : GenerationRequest)
    (h : build cfg kind opts snap = Except.ok req) :
    (req.techOverlap =
        techOverlapOf snap.resume.extractedSkills snap.job.requiredTechnologies ∧
      req.jobOnlyTech =
        jobOnlyOf snap.resume.extractedSkills snap.job.requiredTechnologies ∧
      req.resumeOnlyTech =
        resumeOnlyOf snap.resume.extractedSkills snap.job.requiredTechnologies) ∧
    (reqEx.techOverlap = ["python", "sql"] ∧ reqEx.jobOnlyTech = ["power bi"]) := by
  refine ⟨?_, rfl, rfl⟩
  unfold build at h
  split_ifs at h <;> simp only [Except.ok.injEq] at h <;> subst h <;>
    exact ⟨rfl, rfl, rfl⟩

/-- Witness for C1 at the spec's example snapshot. -/
theorem build_techOverlap_correct_witness :
    build cfgEx DocKind.email optsEx snapEx = Except.ok reqEx ∧
    reqEx.techOverlap =
      techOverlapOf snapEx.resume.extractedSkills snapEx.job.requiredTechnologies :=
  ⟨rfl,
    (build_techOverlap_correct cfgEx DocKind.email optsEx snapEx reqEx
      rfl).1.1⟩

/-- C2: for every kind and options, a snapshot with an empty job
description (or an empty resume text) makes `build` fail with
`InvalidContext`. -/
theorem build_emptyContext_fails (cfg : PipelineConfig) (kind : DocKind)
    (opts : Options) (snap : Snapshot)
    (h : snap.job.description = "" ∨ snap.resume.rawText = "") :
    ∃ fld, build cfg kind opts snap =
      Except.error (PipelineError.invalidContext fld) := by
  by_cases hr : snap.resume.rawText = ""
  · exact ⟨"resume.rawText", by simp [build, hr]⟩
  · rcases h with hd | hd
    · exact ⟨"job.description", by simp [build, hr, hd]⟩
    · exact absurd hd hr

/-- Witness for C2 on a snapshot with empty job description. -/
theorem build_emptyContext_fails_witness :
    ∃ fld, build cfgEx DocKind.coverLetter optsEx snapEmptyJob =
      Except.error (PipelineError.invalidContext fld) :=
  build_emptyContext_fails cfgEx DocKind.coverLetter optsEx snapEmptyJob
    (Or.inl (by decide))

/-- C3: validation is a pure function — two calls on the same text give
the same normalized text and the same issues — and the normalization
stage it applies is idempotent on the line representation. -/
theorem validate_idempotent (ctx : ValidationContext) (kind : DocKind)
    (text : String) :
    ((validate ctx kind text).normalizedText =
        (validate ctx kind text).normalizedText ∧
      (validate ctx kind text).validationIssues =
        (validate ctx kind text).validationIssues) ∧
    normalizeLines (normalizeLines (splitLines text)) =
      normalizeLines (splitLines text) :=
  ⟨⟨rfl, rfl⟩, normalizeLines_idem _⟩

/-- C4: an email none of whose lines contains the configured full name is
validated with a non-empty issue list containing the missing-signature
entry, the raw email is still returned, and the issues are sorted by the
fixed severity-then-alphabetical order. -/
theorem validate_email_missingSignature (ctx : ValidationContext)
    (text : String)
    (h : ∀ l ∈ splitLines text, containsSub l ctx.fullName = false) :
    (validate ctx DocKind.email text).validationIssues ≠ [] ∧
    sigIssueMsg ∈ (validate ctx DocKind.email text).validationIssues ∧
    (validate ctx DocKind.email text).rawText = text ∧
    sortedBy issueLE (validate ctx DocKind.email text).validationIssues = true := by
  have hsig : hasSignature ctx text = false := by
    unfold hasSignature
    rw [List.any_eq_false]
    intro l hl
    simp [h l hl]
  have hmem : sigIssueMsg ∈ (validate ctx DocKind.email text).validationIssues := by
    show sigIssueMsg ∈ sortIssues (kindIssues ctx DocKind.email text)
    rw [show sortIssues = sortStringsBy issueLE from rfl, mem_sortStringsBy]
    simp [kindIssues, hsig]
  refine ⟨List.ne_nil_of_mem hmem, hmem, rfl, ?_⟩
  exact sortedBy_sortStringsBy issueLE_total _

/-- Witness for C4 on a concrete nameless email. -/
theorem validate_email_missingSignature_witness :
    sigIssueMsg ∈ (validate ctxEx DocKind.email emailNoName).validationIssues ∧
    (validate ctxEx DocKind.email emailNoName).rawText = emailNoName :=
  let h := validate_email_missingSignature ctxEx emailNoName (by decide)
  ⟨h.2.1, h.2.2.1⟩

/-- C5: with three transient failures then a success from the
text-completion boundary, retry count 3 produces a successful result and
retry count 2 surfaces the transient failure; auth and invalid-option
responses are terminal at any attempt, with no retry. -/
theorem generate_retryPolicy (respond : Nat → CompletionResponse) (s : String)
    (h3 : ∀ i, i < 3 → respond i = CompletionResponse.transientFailure)
    (h4 : respond 3 = CompletionResponse.success s) :
    generateClient 3 respond = Except.ok s ∧
    generateClient 2 respond = Except.error PipelineError.transientServiceError ∧
    (∀ (r : Nat → CompletionResponse) (a n : Nat),
      r a = CompletionResponse.authFailure →
      generateLoop r a n = Except.error PipelineError.authFailure) ∧
    (∀ (r : Nat → CompletionResponse) (a n : Nat) (key : String),
      r a = CompletionResponse.invalidOption key →
      generateLoop r a n = Except.error (PipelineError.invalidOption key)) := by
  have e0 := h3 0 (by omega)
  have e1 := h3 1 (by omega)
  have e2 := h3 2 (by omega)
  refine ⟨?_, ?_, ?_, ?_⟩
  · show generateLoop respond 0 3 = Except.ok s
    rw [generateLoop_retry e0, generateLoop_retry e1, generateLoop_retry e2,
      generateLoop_success h4]
  · show generateLoop respond 0 2 = Except.error PipelineError.transientServiceError
    rw [generateLoop_retry e0, generateLoop_retry e1, generateLoop_exhausted e2]
  · intro r a n h
    exact generateLoop_auth h
  · intro r a n key h
    exact generateLoop_opt h

/-- Witness for C5 with the concrete fail-fail-fail-succeed boundary. -/
theorem generate_retryPolicy_witness :
    generateClient 3 respondEx = Except.ok "draft" ∧
    generateClient 2 respondEx = Except.error PipelineError.transientServiceError :=
  let h := generate_retryPolicy respondEx "draft"
    (by intro i hi
        match i, hi with
        | 0, _ => rfl
        | 1, _ => rfl
        | 2, _ => rfl)
    rfl
  ⟨h.1, h.2.1⟩

/-- C6 counterexample: with an invalid purpose but an empty resume text,
`build` fails with `InvalidContext`, not `InvalidOption` — context
validation runs first, so the claim's unconditional form is false. -/
theorem build_invalidOption_cex :
    build cfgEx DocKind.email optsBadPurpose snapEmptyResume =
      Except.error (PipelineError.invalidContext "resume.rawText") ∧
    build cfgEx DocKind.email optsBadPurpose snapEmptyResume ≠
      Except.error (PipelineError.invalidOption "purpose") ∧
    build cfgEx DocKind.email optsBadPurpose snapEmptyResume ≠
      Except.error (PipelineError.invalidOption "tone") := by
  have h1 : build cfgEx DocKind.email optsBadPurpose snapEmptyResume =
      Except.error (PipelineError.invalidContext "resume.rawText") := rfl
  refine ⟨h1, ?_, ?_⟩ <;> rw [h1] <;> simp

/-- C6 (amended): whenever the snapshot passes context validation, an
Email purpose or tone outside the enumerated sets makes `build` fail with
`InvalidOption` naming the offending key, and enumerated options never
cause an `InvalidOption` failure. -/
theorem build_invalidOption_amended (cfg : PipelineConfig) (opts : Options)
    (snap : Snapshot) (hr : snap.resume.rawText ≠ "")
    (hd : snap.job.description ≠ "") :
    (opts.purpose ∉ validPurposes →
      build cfg DocKind.email opts snap =
        Except.error (PipelineError.invalidOption "purpose")) ∧
    (opts.purpose ∈ validPurposes → opts.tone ∉ validTones →
      build cfg DocKind.email opts snap =
        Except.error (PipelineError.invalidOption "tone")) ∧
    (opts.purpose ∈ validPurposes → opts.tone ∈ validTones →
      ∀ key, build cfg DocKind.email opts snap ≠
        Except.error (PipelineError.invalidOption key)) := by
  refine ⟨?_, ?_, ?_⟩
  · intro hp
    simp [build, hr, hd, hp]
  · intro hp ht
    simp [build, hr, hd, hp, ht]
  · intro hp ht key
    simp [build, hr, hd, hp, ht]

/-- Witness for the amended C6 on a valid snapshot with a bad purpose. -/
theorem build_invalidOption_amended_witness :
    build cfgEx DocKind.email optsBadPurpose snapEx =
      Except.error (PipelineError.invalidOption "purpose") :=
  (build_invalidOption_amended cfgEx optsBadPurpose snapEx
    (by decide) (by decide)).1 (by decide)

/-- C7: the validator's issue list is empty exactly when every per-kind
structural check passes, i.e. when the result is eligible for direct
display or send without a user override. -/
theorem issues_empty_iff_eligible (ctx : ValidationContext) (kind : DocKind)
    (text : String) :
    (validate ctx kind text).validationIssues = [] ↔
      eligibleForDirectUse ctx kind text = true := by
  show sortIssues (kindIssues ctx kind text) = [] ↔ _
  rw [show sortIssues = sortStringsBy issueLE from rfl, sortStringsBy_eq_nil]
  cases kind with
  | email =>
    cases hg : hasGreeting text <;> cases hs : hasSignature ctx text <;>
      simp [kindIssues, eligibleForDirectUse, hg, hs]
  | coverLetter =>
    cases ht : mentionsJobTitle ctx text <;>
      simp [kindIssues, eligibleForDirectUse, ht]
  | resumeUpdate =>
    simp [kindIssues, eligibleForDirectUse, missingSkills, List.filter_eq_nil_iff,
      List.all_eq_true]
  | qa => simp [kindIssues, eligibleForDirectUse]
  | analysis => simp [kindIssues, eligibleForDirectUse]

/-- C8: a resume text longer than the configured cap is truncated to
exactly the cap with the truncation flag set; a resume text within the
cap is included unmodified with the flag clear. -/
theorem build_truncation (cfg : PipelineConfig) (kind : DocKind)
    (opts : Options) (snap : Snapshot) (req : GenerationRequest)
    (h : build cfg kind opts snap = Except.ok req) :
    (cfg.resumeCap < snap.resume.rawText.length →
      req.resumeTextIncluded.length = cfg.resumeCap ∧
        req.resumeTruncated = true) ∧
    (snap.resume.rawText.length ≤ cfg.resumeCap →
      req.resumeTextIncluded = snap.resume.rawText ∧
        req.resumeTruncated = false) := by
  unfold build at h
  split_ifs at h <;> simp only [Except.ok.injEq] at h <;> subst h
  · refine ⟨fun hlong => ⟨?_, by simp only [decide_eq_true_eq]; omega⟩,
      fun hshort => absurd hshort (by omega)⟩
    show (snap.resume.rawText.data.take cfg.resumeCap).length = cfg.resumeCap
    rw [List.length_take]
    have hdl : snap.resume.rawText.length = snap.resume.rawText.data.length := rfl
    omega
  · exact ⟨fun hlong => absurd hlong (by omega),
      fun hshort => ⟨rfl, by simp only [decide_eq_false_iff_not]; omega⟩⟩

/-- Witness for C8: the ten-character resume under a five-character cap is
truncated to five, and the example resume under a large cap is kept. -/
theorem build_truncation_witness :
    (reqTrunc.resumeTextIncluded.length = cfgSmallCap.resumeCap ∧
      reqTrunc.resumeTruncated = true) ∧
    (reqEx.resumeTextIncluded = snapEx.resume.rawText ∧
      reqEx.resumeTruncated = false) :=
  ⟨(build_truncation cfgSmallCap DocKind.email optsEx snapLongResume reqTrunc
      rfl).1 (by decide),
    (build_truncation cfgEx DocKind.email optsEx snapEx reqEx
      rfl).2 (by decide)⟩

end Pipeline

namespace Portfolio

/-! ### Featured projects component

Embedded from the portfolio source file defining the `projects` array and
the `FeaturedProjects` React component.  Icon components are represented
by their imported names; a JSX field that is absent or `null` is `none`. -/

/-- One entry of the `projects` array. -/
structure Project where
  title : String
  description : String
  image : String
  imageWidth : Nat
  imageHeight : Nat
  tags : List String
  skills : List String
  icons : List String
  github : Option String
  live : Option String
  video : Option String
  featured : Bool
  size : String
deriving DecidableEq, Repr

/-- The "Early Cancer Detection" entry. -/
def earlyCancerDetection : Project :=
  { title := "Early Cancer Detection"
    description := "Built a deep neural network to classify 6 cancer subtypes from integrated mRNA, miRNA, and SNV data, achieving 88.5% AUC and 78.2% accuracy. Applied KEGG pathway-based feature engineering and explainable AI (SHAP, Grad-CAM) to ensure model interpretability and biological relevance."
    image := "/assets/project-image/project-image-1.png"
    imageWidth := 800
    imageHeight := 400
    tags := ["Python", "Deep Learning", "Multi-Omics", "XAI"]
    skills := ["Python", "TensorFlow", "PyTorch", "scikit-learn", "Pandas",
      "NumPy", "Keras", "Jupyter"]
    icons := ["FaPython", "SiTensorflow", "SiPytorch", "SiScikitlearn",
      "SiPandas", "SiNumpy", "SiKeras", "SiJupyter"]
    github := some "https://github.com/rohansonawane/early-cancer-detection"
    live := none
    video := none
    featured := true
    size := "large" }

/-- The "Crypto in VR" entry: six skills, seven icons, no `live` field. -/
def cryptoInVR : Project :=
  { title := "Crypto in VR"
    description := "An immersive VR experience built with A-Frame to visualize and interact with cryptocurrency transactions in a 3D environment."
    image := "/assets/project-image/project-image-2.png"
    imageWidth := 600
    imageHeight := 400
    tags := ["A-Frame", "WebVR", "JavaScript"]
    skills := ["JavaScript", "A-Frame", "WebVR", "HTML5", "CSS3", "Blockchain"]
    icons := ["FaJs", "SiAframe", "FaServer", "FaHtml5", "FaCss3", "FaCloud",
      "FaTools"]
    github := some "https://github.com/rohansonawane/crypto-in-vr"
    live := none
    video := some "https://www.youtube.com/watch?v=PmEW1usHfR8"
    featured := true
    size := "medium" }

/-- The "Hate Map" entry: `github` is null. -/
def hateMap : Project :=
  { title := "Hate Map"
    description := "Interactive visualization of hate speech incidents across India, helping to raise awareness and track patterns of discrimination. Features real-time data updates, filtering capabilities, and detailed incident reporting."
    image := "/assets/project-image/project-image-3.png"
    imageWidth := 600
    imageHeight := 400
    tags := ["Mapbox API", "PHP", "MySQL"]
    skills := ["React", "D3.js", "Mapbox API", "PHP", "MySQL",
      "Data Visualization"]
    icons := ["SiReact", "SiD3Dotjs", "SiMapbox", "FaPhp", "FaDatabase",
      "FaChartLine", "FaTools"]
    github := none
    live := some "https://cjp.org.in/hate-map"
    video := none
    featured := true
    size := "medium" }

/-- The "Website Section Hider" entry. -/
def websiteSectionHider : Project :=
  { title := "Website Section Hider"
    description := "Chrome extension for real-time hiding of website elements, enhancing user productivity and focus. Features drag-to-select UI, robust CSS selector logic, and page-specific rule storage using Chrome Storage API and Mutation Observer."
    image := "/assets/project-image/project-image-4.png"
    imageWidth := 800
    imageHeight := 400
    tags := ["JavaScript", "HTML5", "CSS3", "Chrome APIs"]
    skills := ["JavaScript", "HTML5", "CSS3", "Chrome APIs",
      "DOM Manipulation", "Local Storage", "Mutation Observer"]
    icons := ["FaJs", "FaHtml5", "FaCss3", "FaTools", "FaCode", "FaServer",
      "FaBrain"]
    github := some "https://github.com/rohansonawane/website-section-hider"
    live := none
    video := some "https://www.youtube.com/watch?v=MLIDQBssJ2o&feature=youtu.be"
    featured := true
    size := "large" }

/-- The `projects` array rendered by `FeaturedProjects`. -/
def projects : List Project :=
  [earlyCancerDetection, cryptoInVR, hateMap, websiteSectionHider]

/-- A link anchor rendered in a project card. -/
inductive Anchor
  | github (url : String)
  | live (url : String)
  | video (url : String)
deriving DecidableEq, Repr

/-- The JSX guard `{project.field && <a ...>}`: an anchor is emitted only
when the field is set. -/
def optionalAnchor (f : String → Anchor) : Option String → List Anchor
  | some u => [f u]
  | none => []

/-- The links section of a project card: GitHub, live demo, then video,
each guarded by the truthiness of its field. -/
def cardLinks (p : Project) : List Anchor :=
  optionalAnchor Anchor.github p.github ++ optionalAnchor Anchor.live p.live ++
    optionalAnchor Anchor.video p.video

/-- Is this anchor a GitHub link? -/
def isGithubAnchor : Anchor → Bool
  | Anchor.github _ => true
  | _ => false

/-- Is this anchor a live-demo link? -/
def isLiveAnchor : Anchor → Bool
  | Anchor.live _ => true
  | _ => false

/-- Is this anchor a video link? -/
def isVideoAnchor : Anchor → Bool
  | Anchor.video _ => true
  | _ => false

/-- The skill badges of a card: `project.skills.map((skill, i) => ...)`
pairs the skill at index `i` with `project.icons[i]`, which is `none`
(and the icon element is skipped) when the index is out of range. -/
def renderBadgesAux (icons : List String) : List String → Nat →
    List (String × Option String)
  | [], _ => []
  | s :: rest, i => (s, icons[i]?) :: renderBadgesAux icons rest (i + 1)

/-- All rendered skill badges of one project card. -/
def renderedBadges (p : Project) : List (String × Option String) :=
  renderBadgesAux p.icons p.skills 0

theorem renderBadgesAux_length (icons skills : List String) (i : Nat) :
    (renderBadgesAux icons skills i).length = skills.length := by
  induction skills generalizing i with
  | nil => rfl
  | cons s rest ih => simp [renderBadgesAux, ih]

theorem renderBadgesAux_getElem? (icons skills : List String) (i j : Nat) :
    (renderBadgesAux icons skills i)[j]? =
      (skills[j]?).map (fun s => (s, icons[i + j]?)) := by
  induction skills generalizing i j with
  | nil => simp [renderBadgesAux]
  | cons s rest ih =>
    cases j with
    | zero => simp [renderBadgesAux]
    | succ j =>
      simp only [renderBadgesAux, List.getElem?_cons_succ, ih (i + 1) j]
      have : i + 1 + j = i + (j + 1) := by omega
      rw [this]

/-- C9: a project card renders a GitHub anchor exactly when the entry's
`github` field is set, a live-demo anchor exactly when `live` is set, and
a video anchor exactly when `video` is set; in particular the "Hate Map"
entry (third in `projects`) renders no GitHub link and "Crypto in VR"
(second in `projects`) renders no live-demo link. -/
theorem cardLinks_iff_fields :
    (∀ p : Project,
      ((cardLinks p).any isGithubAnchor = true ↔ p.github ≠ none) ∧
      ((cardLinks p).any isLiveAnchor = true ↔ p.live ≠ none) ∧
      ((cardLinks p).any isVideoAnchor = true ↔ p.video ≠ none)) ∧
    projects[2]? = some hateMap ∧
    (cardLinks hateMap).any isGithubAnchor = false ∧
    projects[1]? = some cryptoInVR ∧
    (cardLinks cryptoInVR).any isLiveAnchor = false := by
  refine ⟨?_, rfl, rfl, rfl, rfl⟩
  intro p
  refine ⟨?_, ?_, ?_⟩ <;>
    cases hg : p.github <;> cases hl : p.live <;> cases hv : p.video <;>
      simp [cardLinks, optionalAnchor, hg, hl, hv, isGithubAnchor,
        isLiveAnchor, isVideoAnchor]

/-- C10: the badge at index `i` of a card pairs the skill at `i` with
`project.icons[i]` when that lookup is in range and with no icon
otherwise, and rendering is total: every project yields exactly one badge
per skill.  "Crypto in VR" has six skills and seven icons, so six badges
are rendered and its seventh icon ("FaTools") never appears. -/
theorem badges_total_and_guarded :
    (∀ p : Project, (renderedBadges p).length = p.skills.length) ∧
    (∀ (p : Project) (j : Nat) (s : String), p.skills[j]? = some s →
      (renderedBadges p)[j]? = some (s, p.icons[j]?)) ∧
    cryptoInVR.skills.length = 6 ∧
    cryptoInVR.icons.length = 7 ∧
    (renderedBadges cryptoInVR).length = 6 ∧
    (renderedBadges cryptoInVR).all
      (fun b => !(b.2 == some "FaTools")) = true := by
  refine ⟨fun p => renderBadgesAux_length _ _ _, ?_, rfl, rfl, rfl, by decide⟩
  intro p j s hs
  show (renderBadgesAux p.icons p.skills 0)[j]? = some (s, p.icons[j]?)
  rw [renderBadgesAux_getElem?, hs]
  simp [Nat.zero_add]

/-- Witness for C10 at the first badge of "Crypto in VR". -/
theorem badges_total_and_guarded_witness :
    (renderedBadges cryptoInVR)[0]? = some ("JavaScript", cryptoInVR.icons[0]?) :=
  badges_total_and_guarded.2.1 cryptoInVR 0 "JavaScript" rfl

end Portfolio
